import Mathlib

/-!
OpsGenie Go SDK v2: the request-execution core.

A shallow embedding of `client/client.go` (construction of the client handle, the
default retry predicate, request building, error extraction and `Exec`) together
with the properties established about it.

Conventions of the embedding:

* a Go `error` is `Option GoError`; `none` is the nil error;
* a Go pointer that may be nil is an `Option`;
* a function that can hit a run-time panic returns `Except Panic _`;
* Go `int` is `Int` (no arithmetic is performed on it, only comparisons);
* package-level variables (`UserAgentHeader`, the logrus standard logger) are
  threaded explicitly as `Globals`;
* what the program takes from other packages and from the platform is either
  modelled by a named definition with the package's documented behaviour or
  collected in `Env`;
* the text written to the log is not part of the embedding; the arguments of a log
  call are still evaluated, which matters where `err.Error()` meets a nil `err`.
-/

namespace OpsGenie

/-! ## Errors, contexts, responses -/

/-- Run-time panics reachable in the embedded code. -/
inductive Panic
  | nilDereference
  deriving DecidableEq, Repr

/-- Equality of outcomes is decidable when it is for results and panics. -/
instance instDecidableEqExcept {ε α : Type} [DecidableEq ε] [DecidableEq α] : DecidableEq (Except ε α)
  | .ok a, .ok b => if h : a = b then isTrue (by rw [h]) else isFalse (fun h2 => h (Except.ok.inj h2))
  | .error a, .error b =>
    if h : a = b then isTrue (by rw [h]) else isFalse (fun h2 => h (Except.error.inj h2))
  | .ok _, .error _ => isFalse (fun h => Except.noConfusion h)
  | .error _, .ok _ => isFalse (fun h => Except.noConfusion h)

/-- Value of Go type `float32`.  Floating-point rounding is outside the embedding:
the value is carried as the decimal literal it was converted from, `"0"` being the
zero value. -/
structure Float32 where
  lit : String
  deriving DecidableEq, Repr

/-- Zero value of `float32`. -/
def Float32.zero : Float32 := ⟨"0"⟩

/-- Struct `ApiError` (client.go 208-216).  The embedded `error` interface field is
never assigned by the program and is skipped by `encoding/json` (unexported,
non-struct embedded field), so it is always nil and is left out.  `Errors` is a Go
map: `none` is the nil map, `some kvs` an association list with distinct keys. -/
structure ApiError where
  Message : String
  Took : Float32
  RequestId : String
  Errors : Option (List (String × String))
  StatusCode : String
  ErrorHeader : String
  deriving DecidableEq, Repr

/-- Non-nil values of the Go interface type `error` that the client meets. -/
inductive GoError
  /-- Result of `errors.New(msg)` of `github.com/pkg/errors`. -/
  | errorsNew (msg : String)
  /-- The `*url.Error` returned by `url.Parse`; its text is `"parse " ++ detail`. -/
  | urlError (detail : String)
  /-- Value `context.Canceled`. -/
  | canceled
  /-- Value `context.DeadlineExceeded`. -/
  | deadlineExceeded
  /-- The `*ApiError` built by `handleErrorIfExist`. -/
  | apiError (e : ApiError)
  /-- The error of `http.NewRequest` for a method that is not a token. -/
  | invalidMethod (method : String)
  /-- Any other error (transport failures, encoder errors, errors made by callers). -/
  | foreign (msg : String)
  deriving DecidableEq, Repr

/-- Go `context.Context`, as far as the client looks at it: the value of `ctx.Err()`
(nil while the context is live, `Canceled` or `DeadlineExceeded` afterwards; once
non-nil, every later call returns the same error). -/
structure Context where
  Err : Option GoError
  deriving DecidableEq, Repr

/-- Context `context.Background()`: never cancelled. -/
def Context.background : Context := ⟨none⟩

/-- Go `http.Header`: a map from keys to the list of values added under the key. -/
abbrev Header := List (String × List String)

/-- Go `http.Response`, as far as the client looks at it.  `Body` is the bytes
`ioutil.ReadAll(response.Body)` returns and `ReadErr` the error it returns with them. -/
structure Response where
  StatusCode : Int
  Header : Header
  Body : String
  ReadErr : Option GoError
  deriving DecidableEq, Repr

/-- Signature `retryablehttp.CheckRetry`. -/
abbrev CheckRetry := Context → Option Response → Option GoError → Except Panic (Bool × Option GoError)

/-- Signature `retryablehttp.Backoff`: minimum wait, maximum wait, attempt number and
last response give the wait (durations in nanoseconds). -/
abbrev Backoff := Int → Int → Int → Option Response → Int

/-- Signature `retryablehttp.ErrorHandler`. -/
abbrev ErrorHandler := Option Response → Option GoError → Int → Option Response × Option GoError

/-! ## The default retry predicate (client.go 115-135) -/

/-- The closure installed as `CheckRetry` by `setRetryPolicy` when `cfg.RetryPolicy`
is nil.  Reading `resp.StatusCode` through a nil `resp` panics. -/
def defaultCheckRetry : CheckRetry := fun ctx resp err =>
  if ctx.Err ≠ none then
    .ok (false, ctx.Err)
  else if err ≠ none then
    .ok (true, err)
  else
    match resp with
    | none => .error .nilDereference
    | some r =>
      if r.StatusCode = 0 ∨ (r.StatusCode ≥ 500 ∧ r.StatusCode ≠ 501) then
        .ok (true, none)
      else if r.StatusCode = 429 then
        .ok (true, none)
      else
        .ok (false, none)

/-! ## Configuration and the client handle -/

/-- Levels of `github.com/sirupsen/logrus`. -/
inductive Level
  | panic | fatal | error | warn | info | debug | trace
  deriving DecidableEq, Repr

/-- Method `Level.String` of logrus: the canonical name of a level. -/
def Level.String : Level → String
  | .panic => "panic"
  | .fatal => "fatal"
  | .error => "error"
  | .warn => "warning"
  | .info => "info"
  | .debug => "debug"
  | .trace => "trace"

/-- Lower case of one rune as `strings.ToLower` computes it, restricted to what can
matter when the result is compared with an ASCII word: ASCII capitals, and the two
other runes whose lower case is an ASCII letter (U+0130 gives i, U+212A gives k).
Every other rune is kept; its true lower case is not an ASCII letter either. -/
def lowerRune (c : Char) : Char :=
  if c.toNat = 0x130 then 'i'
  else if c.toNat = 0x212A then 'k'
  else if 65 ≤ c.toNat ∧ c.toNat ≤ 90 then Char.ofNat (c.toNat + 32)
  else c

/-- Function `strings.ToLower`, see `lowerRune`. -/
def toLower (s : String) : String := ⟨s.data.map lowerRune⟩

/-- Function `logrus.ParseLevel`: the level named by the string, compared after
lower-casing; `none` stands for the error "not a valid logrus Level". -/
def ParseLevel (lvl : String) : Option Level :=
  let l := toLower lvl
  if l = "panic" then some .panic
  else if l = "fatal" then some .fatal
  else if l = "error" then some .error
  else if l = "warn" ∨ l = "warning" then some .warn
  else if l = "info" then some .info
  else if l = "debug" then some .debug
  else if l = "trace" then some .trace
  else none

/-- Field `Transport` of an `http.Client`. -/
inductive Transport
  /-- The transport the client was created with. -/
  | default
  /-- Value `&http.Transport{Proxy: http.ProxyURL(u)}`. -/
  | proxy (u : String)
  deriving DecidableEq, Repr

/-- Go `http.Client`: `tag` tells clients apart, `Transport` is its transport. -/
structure HttpClient where
  tag : Nat
  Transport : Transport
  deriving DecidableEq, Repr

/-- Modelled from the spec: struct `Config`, declared in a file of the package that is
not among the sources.  The fields are those `client.go` and `main.go` read and write,
with the types their uses fix. -/
structure Config where
  ApiKey : String
  OpsGenieAPIURL : String
  HttpClient : Option HttpClient
  LogLevel : String
  ProxyUrl : String
  Backoff : Option Backoff
  RetryPolicy : Option CheckRetry
  RetryCount : Int
  apiUrl : String

/-- Struct `retryablehttp.Client`, the fields the program touches.  `HTTPClient` is a
pointer that is never nil here: `retryablehttp.NewClient` fills it and
`setConfiguration` only overwrites it with a non-nil client. -/
structure RetryableClient where
  HTTPClient : HttpClient
  hasLogger : Bool
  RetryMax : Int
  CheckRetry : CheckRetry
  Backoff : Backoff
  ErrorHandler : Option ErrorHandler

/-- Struct `OpsGenieClient` (client.go 20-23). -/
structure OpsGenieClient where
  RetryableClient : RetryableClient
  Config : Config

/-- Package-level state: the variable `UserAgentHeader` and the level of the logrus
standard logger. -/
structure Globals where
  UserAgentHeader : String
  logLevel : Level
  deriving DecidableEq, Repr

/-- What the program takes from outside `client.go`: the constant `API_URL_EU` (declared
in a file that is not among the sources), `runtime.Version()`, `runtime.GOOS`,
`runtime.GOARCH`, the function `url.Parse` (the parsed URL, or the detail of the
`*url.Error`), the value `retryablehttp.NewClient()` returns, the function
`strconv.ParseFloat(s, 32)` (`none` is its error), and the renderings of `fmt` for
the verbs `%f` (of a `float32`), `%v` (of a `map[string]string`) and `%q`. -/
structure Env where
  API_URL_EU : String
  runtimeVersion : String
  GOOS : String
  GOARCH : String
  urlParse : String → Except String String
  NewClient : RetryableClient
  ParseFloat32 : String → Option Float32
  fmtFloat : Float32 → String
  fmtMap : List (String × String) → String
  fmtQuote : String → String

/-- Variable `apiURL` (client.go 59). -/
def apiURL : String := "https://api.opsgenie.com"

/-- Variable `euApiURL` (client.go 60). -/
def euApiURL : String := "https://api.eu.opsgenie.com"

/-- Function `defineErrorHandler` (client.go 178-188). -/
def defineErrorHandler : ErrorHandler := fun resp err _numTries =>
  if err ≠ none then
    if err = some .deadlineExceeded then
      (none, err)
    else
      (none, err)
  else
    (resp, none)

/-- Function `setConfiguration` (client.go 63-72). -/
def setConfiguration (env : Env) (opsGenieClient : OpsGenieClient) (cfg : Config) : OpsGenieClient :=
  let c1 : OpsGenieClient :=
    { opsGenieClient with
      RetryableClient := { opsGenieClient.RetryableClient with ErrorHandler := some defineErrorHandler } }
  let c2 : OpsGenieClient := { c1 with Config := { c1.Config with apiUrl := apiURL } }
  let c3 : OpsGenieClient :=
    if cfg.OpsGenieAPIURL = env.API_URL_EU then
      { c2 with Config := { c2.Config with apiUrl := euApiURL } }
    else c2
  match cfg.HttpClient with
  | some h => { c3 with RetryableClient := { c3.RetryableClient with HTTPClient := h } }
  | none => c3

/-- Function `setLogger` (client.go 74-92): the state of the standard logger and the
`Config` behind the pointer `conf` after the call. -/
def setLogger (g : Globals) (conf : Config) : Globals × Config :=
  let g1 : Globals := { g with logLevel := .info }
  let g2 : Globals :=
    if conf.LogLevel ≠ "" then
      match ParseLevel conf.LogLevel with
      | none => g1
      | some lvl => { g1 with logLevel := lvl }
    else g1
  (g2, { conf with LogLevel := g2.logLevel.String })

/-- Function `setProxy` (client.go 94-103). -/
def setProxy (env : Env) (client : OpsGenieClient) (proxyUrl : String) : OpsGenieClient × Option GoError :=
  if proxyUrl ≠ "" then
    match env.urlParse proxyUrl with
    | .error detail => (client, some (.urlError detail))
    | .ok proxyURL =>
      ({ client with
          RetryableClient := { client.RetryableClient with
            HTTPClient := { client.RetryableClient.HTTPClient with Transport := .proxy proxyURL } } },
        none)
  else (client, none)

/-- Function `setRetryPolicy` (client.go 105-143). -/
def setRetryPolicy (opsGenieClient : OpsGenieClient) (cfg : Config) : OpsGenieClient :=
  let r0 := opsGenieClient.RetryableClient
  let r1 : RetryableClient :=
    match cfg.Backoff with
    | some b => { r0 with Backoff := b }
    | none => r0
  let r2 : RetryableClient :=
    match cfg.RetryPolicy with
    | some p => { r1 with CheckRetry := p }
    | none => { r1 with CheckRetry := defaultCheckRetry }
  let r3 : RetryableClient :=
    if cfg.RetryCount ≠ 0 then { r2 with RetryMax := cfg.RetryCount }
    else { r2 with RetryMax := 4 }
  { opsGenieClient with RetryableClient := r3 }

/-- Function `NewOpsGenieClient` (client.go 145-167): the package state after the call,
the returned client pointer and the returned error. -/
def NewOpsGenieClient (env : Env) (g : Globals) (cfg : Config) :
    Globals × Option OpsGenieClient × Option GoError :=
  let g1 : Globals :=
    { g with UserAgentHeader :=
        "opsgenie-go-sdk-v2" ++ " " ++ env.runtimeVersion ++ " (" ++ env.GOOS ++ "/" ++ env.GOARCH ++ ")" }
  let opsGenieClient : OpsGenieClient := { Config := cfg, RetryableClient := env.NewClient }
  if cfg.ApiKey = "" then
    (g1, none, some (.errorsNew "API key cannot be blank"))
  else
    let c1 := setConfiguration env opsGenieClient cfg
    let c2 : OpsGenieClient := { c1 with RetryableClient := { c1.RetryableClient with hasLogger := false } }
    let (g2, cfg2) := setLogger g1 cfg
    let (c3, err) := setProxy env c2 cfg2.ProxyUrl
    if err ≠ none then
      (g2, none, err)
    else
      let c4 := setRetryPolicy c3 cfg2
      if err ≠ none then
        (g2, none, err)
      else
        (g2, some c4, none)

/-! ## Headers and request building -/

/-- Table `isTokenTable` of `net/textproto` and `net/http`: the bytes allowed in a
header field name and in a method. -/
def isTokenByte (c : Char) : Bool :=
  (48 ≤ c.toNat ∧ c.toNat ≤ 57) ∨ (65 ≤ c.toNat ∧ c.toNat ≤ 90) ∨ (97 ≤ c.toNat ∧ c.toNat ≤ 122)
    ∨ c ∈ ['!', '#', '$', '%', '&', '\'', '*', '+', '-', '.', '^', '_', '\x60', '|', '~']

/-- Inner loop of `textproto.CanonicalMIMEHeaderKey`: upper case for the first letter and
for a letter after a dash, lower case for the other letters. -/
def canonicalize : Bool → List Char → List Char
  | _, [] => []
  | upper, c :: cs =>
    let c1 : Char :=
      if upper ∧ 97 ≤ c.toNat ∧ c.toNat ≤ 122 then Char.ofNat (c.toNat - 32)
      else if ¬ upper ∧ 65 ≤ c.toNat ∧ c.toNat ≤ 90 then Char.ofNat (c.toNat + 32)
      else c
    c1 :: canonicalize (c1 = '-') cs

/-- Function `textproto.CanonicalMIMEHeaderKey`: a key with a byte that is not a token
byte is returned unchanged. -/
def CanonicalMIMEHeaderKey (s : String) : String :=
  if s.data.all isTokenByte then ⟨canonicalize true s.data⟩ else s

/-- Method `Header.Add`: append the value under the canonical key. -/
def Header.Add (h : Header) (key value : String) : Header :=
  let k := CanonicalMIMEHeaderKey key
  if h.any (fun kv => kv.1 = k) then
    h.map (fun kv => if kv.1 = k then (kv.1, kv.2 ++ [value]) else kv)
  else h ++ [(k, [value])]

/-- Method `Header.Values`: every value stored under the canonical key. -/
def Header.Values (h : Header) (key : String) : List String :=
  match h.find? (fun kv => kv.1 = CanonicalMIMEHeaderKey key) with
  | some kv => kv.2
  | none => []

/-- Method `Header.Get`: the first value stored under the canonical key, or `""`. -/
def Header.Get (h : Header) (key : String) : String :=
  (Header.Values h key).headD ""

/-- Interface `ApiRequest` (client.go 29-33), seen as the values its methods return,
plus what `json.NewEncoder(buf).Encode(apiRequest)` does with the value: the bytes
written to the buffer, or the encoder's error. -/
structure ApiRequest where
  Validate : Bool × Option GoError
  Endpoint : String
  Method : String
  Encode : Except GoError String

/-- Struct `request` (client.go 25-27) with the `retryablehttp.Request` and the
`http.Request` it wraps: method, URL, header, body bytes and context. -/
structure Request where
  Method : String
  URL : String
  Header : Header
  Body : Option String
  ctx : Context
  deriving DecidableEq, Repr

/-- Function `retryablehttp.NewRequest`, which calls `http.NewRequest`: an empty method
means GET, a method that is not a token and a URL that does not parse are errors, and
the new request has an empty header and the background context. -/
def NewRequest (env : Env) (method url : String) (rawBody : Option String) : Except GoError Request :=
  let m := if method = "" then "GET" else method
  if ¬ (m.data.all isTokenByte) then .error (.invalidMethod m)
  else
    match env.urlParse url with
    | .error detail => .error (.urlError detail)
    | .ok u => .ok { Method := m, URL := u, Header := [], Body := rawBody, ctx := Context.background }

/-- Method `buildHttpRequest` (client.go 245-271). -/
def buildHttpRequest (env : Env) (g : Globals) (cli : OpsGenieClient) (apiRequest : ApiRequest) :
    Except GoError Request :=
  let buf : Except GoError (Option String) :=
    if apiRequest.Method ≠ "GET" ∧ apiRequest.Method ≠ "DELETE" then
      match apiRequest.Encode with
      | .error err => .error err
      | .ok bytes => .ok (some bytes)
    else .ok none
  match buf with
  | .error err => .error err
  | .ok buf =>
    match NewRequest env apiRequest.Method (cli.Config.apiUrl ++ apiRequest.Endpoint) buf with
    | .error err => .error err
    | .ok req =>
      let h1 : Header :=
        if apiRequest.Method ≠ "GET" ∧ apiRequest.Method ≠ "DELETE" then
          Header.Add req.Header "Content-Type" "application/json; charset=utf-8"
        else req.Header
      let h2 := Header.Add h1 "Accept" "application/json"
      let h3 := Header.Add h2 "Authorization" ("GenieKey " ++ cli.Config.ApiKey)
      let h4 := Header.Add h3 "User-Agent" g.UserAgentHeader
      let h5 : Header :=
        if apiRequest.Method = "GET" then
          Header.Add h4 "Content-Type" "application/x-www-form-urlencoded; charset=UTF-8"
        else h4
      .ok { req with Header := h5 }

/-! ## JSON text (package `encoding/json`) -/

/-- JSON values.  A number keeps its literal. -/
inductive Json
  | null
  | bool (b : Bool)
  | num (lit : String)
  | str (s : String)
  | arr (elems : List Json)
  | obj (members : List (String × Json))
  deriving Repr

/-- Drop leading JSON white space (space, tab, carriage return, line feed). -/
def skipWs : List Char → List Char
  | [] => []
  | c :: cs => if c = ' ' ∨ c = '\t' ∨ c = '\r' ∨ c = '\n' then skipWs cs else c :: cs

/-- Remove the given literal from the front of the input, if it is there. -/
def dropLit : List Char → List Char → Option (List Char)
  | [], cs => some cs
  | _ :: _, [] => none
  | l :: ls, c :: cs => if l = c then dropLit ls cs else none

/-- Value of a hexadecimal digit. -/
def hexVal (c : Char) : Option Nat :=
  if 48 ≤ c.toNat ∧ c.toNat ≤ 57 then some (c.toNat - 48)
  else if 97 ≤ c.toNat ∧ c.toNat ≤ 102 then some (c.toNat - 87)
  else if 65 ≤ c.toNat ∧ c.toNat ≤ 70 then some (c.toNat - 55)
  else none

/-- Four hexadecimal digits at the front of the input (function `getu4`). -/
def getu4 : List Char → Option (Nat × List Char)
  | a :: b :: c :: d :: rest =>
    match hexVal a, hexVal b, hexVal c, hexVal d with
    | some x, some y, some z, some w => some (((x * 16 + y) * 16 + z) * 16 + w, rest)
    | _, _, _, _ => none
  | _ => none

/-- The rune for a `\u` escape whose code unit is `u`, given the input after the escape:
a high surrogate followed by an escaped low surrogate gives the pair's code point and
consumes both, any other surrogate gives U+FFFD. -/
def escapedRune (u : Nat) (rest : List Char) : Char × List Char :=
  if 0xD800 ≤ u ∧ u < 0xE000 then
    match rest with
    | '\\' :: 'u' :: rest1 =>
      match getu4 rest1 with
      | some (u1, rest2) =>
        if u < 0xDC00 ∧ 0xDC00 ≤ u1 ∧ u1 < 0xE000 then
          (Char.ofNat ((u - 0xD800) * 0x400 + (u1 - 0xDC00) + 0x10000), rest2)
        else (Char.ofNat 0xFFFD, rest)
      | none => (Char.ofNat 0xFFFD, rest)
    | _ => (Char.ofNat 0xFFFD, rest)
  else (Char.ofNat u, rest)

/-- The rest of a string literal after its opening quote: the decoded string and the
input after the closing quote.  Control characters and unknown escapes are invalid. -/
def parseString : Nat → List Char → List Char → Option (String × List Char)
  | 0, _, _ => none
  | _ + 1, [], _ => none
  | fuel + 1, c :: cs, acc =>
    if c = '"' then some (⟨acc.reverse⟩, cs)
    else if c = '\\' then
      match cs with
      | [] => none
      | e :: rest =>
        if e = '"' then parseString fuel rest ('"' :: acc)
        else if e = '\\' then parseString fuel rest ('\\' :: acc)
        else if e = '/' then parseString fuel rest ('/' :: acc)
        else if e = 'b' then parseString fuel rest (Char.ofNat 8 :: acc)
        else if e = 'f' then parseString fuel rest (Char.ofNat 12 :: acc)
        else if e = 'n' then parseString fuel rest ('\n' :: acc)
        else if e = 'r' then parseString fuel rest ('\r' :: acc)
        else if e = 't' then parseString fuel rest ('\t' :: acc)
        else if e = 'u' then
          match getu4 rest with
          | none => none
          | some (u, rest1) =>
            let (r, rest2) := escapedRune u rest1
            parseString fuel rest2 (r :: acc)
        else none
    else if c.toNat < 0x20 then none
    else parseString fuel cs (c :: acc)

/-- Leading decimal digits of the input and what follows them. -/
def spanDigits : List Char → List Char × List Char
  | [] => ([], [])
  | c :: cs =>
    if 48 ≤ c.toNat ∧ c.toNat ≤ 57 then
      let (ds, rest) := spanDigits cs
      (c :: ds, rest)
    else ([], c :: cs)

/-- A number literal at the front of the input: optional minus, `0` or a digit 1-9 with
more digits, optional fraction, optional exponent. -/
def parseNumber (cs : List Char) : Option (String × List Char) :=
  let (sign, r0) : List Char × List Char :=
    match cs with
    | '-' :: r => (['-'], r)
    | r => ([], r)
  let intPart : Option (List Char × List Char) :=
    match r0 with
    | '0' :: r => some (['0'], r)
    | r =>
      let (ds, r1) := spanDigits r
      if ds = [] then none else some (ds, r1)
  match intPart with
  | none => none
  | some (ip, r1) =>
    let frac : Option (List Char × List Char) :=
      match r1 with
      | '.' :: r =>
        let (ds, r2) := spanDigits r
        if ds = [] then none else some ('.' :: ds, r2)
      | r => some ([], r)
    match frac with
    | none => none
    | some (fp, r2) =>
      let expo : Option (List Char × List Char) :=
        match r2 with
        | e :: r =>
          if e = 'e' ∨ e = 'E' then
            let (sg, r3) : List Char × List Char :=
              match r with
              | s :: r4 => if s = '+' ∨ s = '-' then ([s], r4) else ([], s :: r4)
              | [] => ([], [])
            let (ds, r5) := spanDigits r3
            if ds = [] then none else some (e :: sg ++ ds, r5)
          else some ([], e :: r)
        | [] => some ([], [])
      match expo with
      | none => none
      | some (ep, r3) => some (⟨sign ++ ip ++ fp ++ ep⟩, r3)

mutual
/-- One JSON value at the front of the input (after white space) and the input after it. -/
def parseValue : Nat → List Char → Option (Json × List Char)
  | 0, _ => none
  | fuel + 1, cs =>
    match skipWs cs with
    | [] => none
    | c :: rest =>
      if c = 'n' then (dropLit ['u', 'l', 'l'] rest).map (fun r => (Json.null, r))
      else if c = 't' then (dropLit ['r', 'u', 'e'] rest).map (fun r => (Json.bool true, r))
      else if c = 'f' then (dropLit ['a', 'l', 's', 'e'] rest).map (fun r => (Json.bool false, r))
      else if c = '"' then (parseString (rest.length + 1) rest []).map (fun sr => (Json.str sr.1, sr.2))
      else if c = '[' then
        match skipWs rest with
        | ']' :: r => some (Json.arr [], r)
        | r => parseElems fuel r []
      else if c = '\x7b' then
        match skipWs rest with
        | '\x7d' :: r => some (Json.obj [], r)
        | r => parseMembers fuel r []
      else (parseNumber (c :: rest)).map (fun nr => (Json.num nr.1, nr.2))
/-- The elements of a non-empty array up to and including the closing bracket. -/
def parseElems : Nat → List Char → List Json → Option (Json × List Char)
  | 0, _, _ => none
  | fuel + 1, cs, acc =>
    match parseValue fuel cs with
    | none => none
    | some (v, r) =>
      match skipWs r with
      | c :: r1 =>
        if c = ',' then parseElems fuel r1 (v :: acc)
        else if c = ']' then some (Json.arr (v :: acc).reverse, r1)
        else none
      | [] => none
/-- The members of a non-empty object up to and including the closing brace. -/
def parseMembers : Nat → List Char → List (String × Json) → Option (Json × List Char)
  | 0, _, _ => none
  | fuel + 1, cs, acc =>
    match skipWs cs with
    | '"' :: r =>
      match parseString (r.length + 1) r [] with
      | none => none
      | some (k, r1) =>
        match skipWs r1 with
        | ':' :: r2 =>
          match parseValue fuel r2 with
          | none => none
          | some (v, r3) =>
            match skipWs r3 with
            | c :: r4 =>
              if c = ',' then parseMembers fuel r4 ((k, v) :: acc)
              else if c = '\x7d' then some (Json.obj ((k, v) :: acc).reverse, r4)
              else none
            | [] => none
        | _ => none
    | _ => none
end

/-- The JSON value a text denotes, `none` when the text is not valid JSON (what the
scanner of `json.Unmarshal` rejects with a `SyntaxError`).  The recursion is bounded by
the length of the text: every nested call comes after at least one consumed character. -/
def parseJson (body : String) : Option Json :=
  match parseValue (body.data.length + 1) body.data with
  | some (v, rest) => if skipWs rest = [] then some v else none
  | none => none

/-! ## Error values as text -/

/-- Function `strconv.Itoa`. -/
def Itoa : Int → String
  | .ofNat n => Nat.repr n
  | .negSucc n => "-" ++ Nat.repr (n + 1)

/-- Method `ApiError.Error` (client.go 218-230). -/
def ApiError.Error (env : Env) (ar : ApiError) : String :=
  let errMessage := "Error occurred with Status code: " ++ ar.StatusCode ++ ", " ++
    "Message: " ++ ar.Message ++ ", " ++
    "Took: " ++ env.fmtFloat ar.Took ++ ", " ++
    "RequestId: " ++ ar.RequestId
  let errMessage :=
    if ar.ErrorHeader ≠ "" then errMessage ++ ", Error Header: " ++ ar.ErrorHeader else errMessage
  match ar.Errors with
  | some m => errMessage ++ ", Error Detail: " ++ env.fmtMap m
  | none => errMessage

/-- Method `Error` of an error value. -/
def GoError.Error (env : Env) : GoError → String
  | .errorsNew msg => msg
  | .urlError detail => "parse " ++ detail
  | .canceled => "context canceled"
  | .deadlineExceeded => "context deadline exceeded"
  | .apiError e => ApiError.Error env e
  | .invalidMethod method => "net/http: invalid method " ++ env.fmtQuote method
  | .foreign msg => msg

/-! ## Decoding an error body (client.go 232-243) -/

/-- Case folding of one rune of an object key as `encoding/json` applies it when it
matches keys with field names: ASCII letters without case, U+212A as k, U+017F as s. -/
def foldRune (c : Char) : Char :=
  if c.toNat = 0x212A then 'k'
  else if c.toNat = 0x17F then 's'
  else if 65 ≤ c.toNat ∧ c.toNat ≤ 90 then Char.ofNat (c.toNat + 32)
  else c

/-- Whether an object key selects the struct field with the given JSON name: the names
are equal, or equal under case folding.  (No two fields of `ApiError` fold to the same
name, so the preference of an exact match over a folded one never decides.) -/
def keyMatches (key fieldName : String) : Bool :=
  key = fieldName ∨ key.data.map foldRune = fieldName.data.map foldRune

/-- Statement `m[k] = v` on a Go map. -/
def mapSet (m : List (String × String)) (k v : String) : List (String × String) :=
  if m.any (fun kv => kv.1 = k) then m.map (fun kv => if kv.1 = k then (k, v) else kv)
  else m ++ [(k, v)]

/-- Decode an object into a `map[string]string`: each member is stored under its key; a
member whose value is not a string leaves the zero value `""` there. -/
def decodeMap (m : List (String × String)) : List (String × Json) → List (String × String)
  | [] => m
  | (k, v) :: rest =>
    let elem : String :=
      match v with
      | .str s => s
      | _ => ""
    decodeMap (mapSet m k elem) rest

/-- Decode one object member into the field of `ApiError` its key selects.  A value of
the wrong kind leaves the field as it is (the `UnmarshalTypeError` is only reported at
the end), `null` leaves a string or number as it is and makes the map nil, and a key
that selects no field is skipped.  The fields are `message`, `took`, `requestId`,
`errors` by their tags and `StatusCode`, `ErrorHeader` by their Go names. -/
def decodeField (e : ApiError) (key : String) (v : Json) : ApiError :=
  if keyMatches key "message" then
    match v with
    | .str s => { e with Message := s }
    | _ => e
  else if keyMatches key "took" then
    match v with
    | .num lit => { e with Took := ⟨lit⟩ }
    | _ => e
  else if keyMatches key "requestId" then
    match v with
    | .str s => { e with RequestId := s }
    | _ => e
  else if keyMatches key "errors" then
    match v with
    | .obj members => { e with Errors := some (decodeMap (e.Errors.getD []) members) }
    | .null => { e with Errors := none }
    | _ => e
  else if keyMatches key "StatusCode" then
    match v with
    | .str s => { e with StatusCode := s }
    | _ => e
  else if keyMatches key "ErrorHeader" then
    match v with
    | .str s => { e with ErrorHeader := s }
    | _ => e
  else e

/-- Decode the members of an object, in the order of the text, into an `ApiError`. -/
def decodeMembers (e : ApiError) : List (String × Json) → ApiError
  | [] => e
  | (k, v) :: rest => decodeMembers (decodeField e k v) rest

/-- Call `json.Unmarshal(body, apiError)` for an `*ApiError`, as the state of the struct
after the call (the returned error is dropped by the caller): text that is not JSON and
a value that is not an object change nothing. -/
def UnmarshalApiError (body : String) (apiError : ApiError) : ApiError :=
  match parseJson body with
  | some (.obj members) => decodeMembers apiError members
  | _ => apiError

/-- Function `handleErrorIfExist` (client.go 232-243). -/
def handleErrorIfExist (response : Option Response) : Option GoError :=
  match response with
  | none => none
  | some r =>
    if r.StatusCode ≥ 300 then
      let apiError : ApiError :=
        { Message := "", Took := Float32.zero, RequestId := "", Errors := none,
          StatusCode := "", ErrorHeader := "" }
      let statusCode := r.StatusCode
      let apiError := { apiError with StatusCode := Itoa statusCode }
      let apiError := { apiError with ErrorHeader := Header.Get r.Header "X-Opsgenie-Errortype" }
      let body := r.Body
      some (.apiError (UnmarshalApiError body apiError))
    else none

/-! ## The retrying transport (package `go-retryablehttp`) -/

/-- The network as the client meets it: what `c.HTTPClient.Do(req)` returns at attempt
number `i` (counted from 0) of a call. -/
abbrev Network := Nat → HttpClient → Request → Option Response × Option GoError

/-- Loop of `retryablehttp.Client.Do` (the library as of 2019, v0.5 and v0.6) from
attempt `i` on, with the response, the error and the number of attempts made.  `remain` is the library's `c.RetryMax - i` cut at 0:
the loop breaks when it is 0.  After an attempt `CheckRetry` decides; when it declines,
its error, if any, replaces the transport's.  Before the next attempt the loop waits
for the back-off or for the end of the request's context, whose state is taken as
fixed during the call.  After the break the `ErrorHandler` gets the last response and
error; without a handler the library gives up with an error of its own. -/
def Do.loop (c : RetryableClient) (net : Network) (req : Request) :
    Nat → Nat → Except Panic (Option Response × Option GoError × Nat)
  | remain, i =>
    let (resp, err) := net i c.HTTPClient req
    match c.CheckRetry req.ctx resp err with
    | .error p => .error p
    | .ok (checkOK, checkErr) =>
      if checkOK = false then
        .ok (resp, if checkErr ≠ none then checkErr else err, i + 1)
      else
        match remain with
        | 0 =>
          match c.ErrorHandler with
          | some handler =>
            let (r, e) := handler resp err (c.RetryMax + 1)
            .ok (r, e, i + 1)
          | none =>
            .ok (none,
              some (.foreign (req.Method ++ " " ++ req.URL ++ " giving up after " ++
                Itoa (c.RetryMax + 1) ++ " attempts")),
              i + 1)
        | remain + 1 =>
          if req.ctx.Err ≠ none then .ok (none, req.ctx.Err, i + 1)
          else Do.loop c net req remain (i + 1)

/-- Method `retryablehttp.Client.Do`. -/
def RetryableClient.Do (c : RetryableClient) (net : Network) (req : Request) :
    Except Panic (Option Response × Option GoError × Nat) :=
  Do.loop c net req c.RetryMax.toNat 0

/-- Method `do` (client.go 190-192). -/
def OpsGenieClient.do (cli : OpsGenieClient) (net : Network) (request : Request) :
    Except Panic (Option Response × Option GoError × Nat) :=
  cli.RetryableClient.Do net request

/-! ## Parsing a response and `Exec` -/

/-- Struct `ResponseMeta` (client.go 41-45). -/
structure ResponseMeta where
  RequestID : String
  ResponseTime : Float32
  RateLimitState : String
  deriving DecidableEq, Repr

/-- Method `setRequestID` (client.go 47-49). -/
def ResponseMeta.setRequestID (rm : ResponseMeta) (requestID : String) : ResponseMeta :=
  { rm with RequestID := requestID }

/-- Method `setResponseTime` (client.go 51-53). -/
def ResponseMeta.setResponseTime (rm : ResponseMeta) (responseTime : Float32) : ResponseMeta :=
  { rm with ResponseTime := responseTime }

/-- Method `setRateLimitState` (client.go 55-57). -/
def ResponseMeta.setRateLimitState (rm : ResponseMeta) (state : String) : ResponseMeta :=
  { rm with RateLimitState := state }

/-- Interface `apiResult` (client.go 35-39) for receivers of type `R`: its three
setters, and what `json.Unmarshal(body, result)` does to a receiver of that type (the
receiver afterwards and the returned error). -/
structure apiResult (R : Type) where
  setRequestID : R → String → R
  setResponseTime : R → Float32 → R
  setRateLimitState : R → String → R
  Unmarshal : String → R → R × Option GoError

/-- Function `setResponseMeta` (client.go 194-206). -/
def setResponseMeta {R : Type} (env : Env) (ops : apiResult R) (httpResponse : Response) (result : R) : R :=
  let requestID := Header.Get httpResponse.Header "X-Request-Id"
  let result := ops.setRequestID result requestID
  let rateLimitState := Header.Get httpResponse.Header "X-RateLimit-State"
  let result := ops.setRateLimitState result rateLimitState
  match env.ParseFloat32 (Header.Get httpResponse.Header "X-Response-Time") with
  | some responseTime => ops.setResponseTime result responseTime
  | none => result

/-- Function `parse` (client.go 313-330): the receiver afterwards and the error. -/
def parse {R : Type} (env : Env) (ops : apiResult R) (response : Option Response) (result : R) :
    R × Option GoError :=
  match response with
  | none => (result, some (.errorsNew "No response received"))
  | some r =>
    match r.ReadErr with
    | some err => (result, some err)
    | none =>
      match ops.Unmarshal r.Body result with
      | (result, some err) =>
        let message := "Response could not be parsed, " ++ GoError.Error env err
        (result, some (.errorsNew message))
      | (result, none) => (setResponseMeta env ops r result, none)

/-- What a call of `Exec` did besides returning: a call of `buildHttpRequest`, a call of
the transport's `do`, an HTTP attempt. -/
inductive Event
  | buildHttpRequest
  | do
  | httpAttempt (i : Nat)
  deriving DecidableEq, Repr

/-- Outcome of a call of `Exec` that returns: the returned error, the receiver
afterwards, and the events of the call in order. -/
structure ExecResult (R : Type) where
  err : Option GoError
  result : R
  events : List Event

/-- Method `Exec` (client.go 273-311).  A nil `ctx` is `none`.  `req.WithContext(ctx)` is
the method of `retryablehttp.Request`, which sets the context of the request in place.
`err.Error()` in the argument of a log call panics when `err` is nil, and so does
`response.Body` in the `defer` when the transport returned neither response nor error. -/
def OpsGenieClient.Exec {R : Type} (env : Env) (g : Globals) (net : Network) (ops : apiResult R)
    (cli : OpsGenieClient) (ctx : Option Context) (request : ApiRequest) (result : R) :
    Except Panic (ExecResult R) :=
  let (ok, err) := request.Validate
  if ok = false then
    match err with
    | none => .error .nilDereference
    | some e => .ok { err := some e, result := result, events := [] }
  else
    match buildHttpRequest env g cli request with
    | .error err => .ok { err := some err, result := result, events := [.buildHttpRequest] }
    | .ok req =>
      let req : Request :=
        match ctx with
        | some c => { req with ctx := c }
        | none => req
      match cli.do net req with
      | .error p => .error p
      | .ok (response, err, attempts) =>
        let events := [Event.buildHttpRequest, Event.do] ++ (List.range attempts).map Event.httpAttempt
        match err with
        | some e => .ok { err := some e, result := result, events := events }
        | none =>
          match response with
          | none => .error .nilDereference
          | some _ =>
            match handleErrorIfExist response with
            | some e => .ok { err := some e, result := result, events := events }
            | none =>
              match parse env ops response result with
              | (result, some e) => .ok { err := some e, result := result, events := events }
              | (result, none) => .ok { err := none, result := result, events := events }

/-! ## Values for evaluation -/

/-- An environment for evaluation: the EU constant as the EU base URL, a Go 1.12
runtime on linux/amd64, a `url.Parse` that rejects only text containing a space, and a
`retryablehttp.NewClient()` with the library's defaults that matter here (`RetryMax` 4,
no `ErrorHandler`). -/
def sampleEnv : Env where
  API_URL_EU := "https://api.eu.opsgenie.com"
  runtimeVersion := "go1.12"
  GOOS := "linux"
  GOARCH := "amd64"
  urlParse := fun u => if ' ' ∈ u.data then .error (u ++ ": invalid character in URL") else .ok u
  NewClient :=
    { HTTPClient := { tag := 0, Transport := .default }
      hasLogger := true
      RetryMax := 4
      CheckRetry := fun ctx _ err =>
        if ctx.Err ≠ none then .ok (false, ctx.Err) else .ok (err ≠ none, none)
      Backoff := fun min _ _ _ => min
      ErrorHandler := none }
  ParseFloat32 := fun s => if (parseNumber s.data).isSome then some ⟨s⟩ else none
  fmtFloat := fun f => f.lit
  fmtMap := fun m => "map" ++ toString m
  fmtQuote := fun q => "\"" ++ q ++ "\""

/-- The package state before any client is made. -/
def sampleGlobals : Globals := { UserAgentHeader := "", logLevel := .info }

/-- The `Config` that `main` builds (main.go 21-27). -/
def mainConf : Config where
  ApiKey := "a871eb83-2d00-4b09-9fb9-7c134a369082"
  OpsGenieAPIURL := sampleEnv.API_URL_EU
  HttpClient := none
  LogLevel := "iasdasd"
  ProxyUrl := ""
  Backoff := none
  RetryPolicy := none
  RetryCount := 1
  apiUrl := ""

/-- A client handle as `NewOpsGenieClient` first allocates it for `mainConf`. -/
def sampleClient : OpsGenieClient := { Config := mainConf, RetryableClient := sampleEnv.NewClient }

/-- The handle after `setConfiguration` and `setRetryPolicy` for `mainConf`. -/
def configuredClient : OpsGenieClient :=
  setRetryPolicy (setConfiguration sampleEnv sampleClient mainConf) mainConf

/-- A response with the given status, no header and an empty body. -/
def statusOnly (code : Int) : Response := { StatusCode := code, Header := [], Body := "", ReadErr := none }

/-- The request `main` sends: GET of the heartbeat "NewSDK" (main.go 40-42). -/
def getHeartbeat : ApiRequest where
  Validate := (true, none)
  Endpoint := "/v2/heartbeats/NewSDK"
  Method := "GET"
  Encode := .ok "\x7b\x7d\n"

/-- A receiver that is just a `ResponseMeta`: its setters are the methods of
`ResponseMeta`, and decoding a body into it stores nothing and fails on text that is
not JSON. -/
def metaReceiver : apiResult ResponseMeta where
  setRequestID := ResponseMeta.setRequestID
  setResponseTime := ResponseMeta.setResponseTime
  setRateLimitState := ResponseMeta.setRateLimitState
  Unmarshal := fun body r =>
    if (parseJson body).isSome then (r, none) else (r, some (.foreign "invalid character"))

/-- A network where every attempt is answered with status 200 and an empty object. -/
def okNetwork : Network := fun _ _ _ =>
  (some { StatusCode := 200, Header := [("X-Request-Id", ["rid-1"])], Body := "\x7b\x7d", ReadErr := none },
    none)

/-- An empty `ResponseMeta`. -/
def emptyMeta : ResponseMeta := { RequestID := "", ResponseTime := Float32.zero, RateLimitState := "" }

/-! ## The default retry predicate: C1, C4, C5 -/

/-- When `cfg.RetryPolicy` is nil, `setRetryPolicy` installs the default closure. -/
theorem setRetryPolicy_installs_default (c : OpsGenieClient) (cfg : Config) (h : cfg.RetryPolicy = none) :
    (setRetryPolicy c cfg).RetryableClient.CheckRetry = defaultCheckRetry := by
  unfold setRetryPolicy
  simp only [h]
  split <;> rfl

/-- C1, the claim as stated fails: with a live context and no transport error the
installed predicate asks for a retry on status 999, which is outside 500..599; with a
cancelled context it declines on status 500 and on status 0; and with a live context,
no error and no response it panics instead of returning a flag. -/
theorem default_retry_truth_table_fails :
    ((setRetryPolicy sampleClient mainConf).RetryableClient.CheckRetry ⟨none⟩ (some (statusOnly 999)) none
        = .ok (true, none)
      ∧ ¬ ((none : Option GoError) ≠ none ∧ (⟨none⟩ : Context).Err = none
            ∨ (statusOnly 999).StatusCode = 0 ∨ (statusOnly 999).StatusCode = 429
            ∨ (500 ≤ (statusOnly 999).StatusCode ∧ (statusOnly 999).StatusCode ≤ 599
                ∧ (statusOnly 999).StatusCode ≠ 501)))
    ∧ ((setRetryPolicy sampleClient mainConf).RetryableClient.CheckRetry ⟨some .canceled⟩
          (some (statusOnly 500)) none = .ok (false, some .canceled)
      ∧ (500 ≤ (statusOnly 500).StatusCode ∧ (statusOnly 500).StatusCode ≤ 599
          ∧ (statusOnly 500).StatusCode ≠ 501))
    ∧ ((setRetryPolicy sampleClient mainConf).RetryableClient.CheckRetry ⟨some .canceled⟩
          (some (statusOnly 0)) none = .ok (false, some .canceled))
    ∧ (setRetryPolicy sampleClient mainConf).RetryableClient.CheckRetry ⟨none⟩ none none
        = .error .nilDereference := by
  rw [setRetryPolicy_installs_default sampleClient mainConf rfl]
  decide

/-- C1, amended: whenever the context is cancelled or expired, or the transport error is
non-nil, or the response is non-nil, the predicate installed by `setRetryPolicy` for a
nil `cfg.RetryPolicy` returns, and its flag is true if and only if the context is live
and (the error is non-nil, or the status is 0 or 429, or the status is at least 500 and
not 501).  In particular, with a live context and no error the flag is false for every
status from 1 to 499 other than 429 (all of 2xx, 3xx, 4xx) and for 501. -/
theorem default_retry_truth_table (c : OpsGenieClient) (cfg : Config) (ctx : Context)
    (resp : Option Response) (err : Option GoError)
    (hpol : cfg.RetryPolicy = none) (hdef : ctx.Err ≠ none ∨ err ≠ none ∨ resp ≠ none) :
    ∃ b e, (setRetryPolicy c cfg).RetryableClient.CheckRetry ctx resp err = .ok (b, e)
      ∧ (b = true ↔ ctx.Err = none ∧ (err ≠ none ∨ ∃ r, resp = some r ∧
            (r.StatusCode = 0 ∨ r.StatusCode = 429 ∨ (500 ≤ r.StatusCode ∧ r.StatusCode ≠ 501))))
      ∧ (ctx.Err = none → err = none → ∀ r, resp = some r →
            ((1 ≤ r.StatusCode ∧ r.StatusCode ≤ 499 ∧ r.StatusCode ≠ 429) ∨ r.StatusCode = 501) →
            b = false) := by
  rw [setRetryPolicy_installs_default c cfg hpol]
  unfold defaultCheckRetry
  by_cases hctx : ctx.Err = none
  · by_cases herr : err = none
    · cases resp with
      | none => simp [hctx, herr] at hdef
      | some r =>
        by_cases h1 : r.StatusCode = 0 ∨ (r.StatusCode ≥ 500 ∧ r.StatusCode ≠ 501)
        · refine ⟨true, none, by simp [hctx, herr, h1], ?_, ?_⟩
          · simp only [hctx, herr, true_and, true_iff, ne_eq, not_true_eq_false, false_or]
            refine ⟨r, rfl, ?_⟩
            rcases h1 with h | ⟨h, h2⟩
            · exact Or.inl h
            · exact Or.inr (Or.inr ⟨h, h2⟩)
          · intro _ _ r2 hr hs
            cases hr
            omega
        · by_cases h2 : r.StatusCode = 429
          · refine ⟨true, none, by simp [hctx, herr, h1, h2], ?_, ?_⟩
            · simp only [hctx, herr, true_and, true_iff, ne_eq, not_true_eq_false, false_or]
              exact ⟨r, rfl, Or.inr (Or.inl h2)⟩
            · intro _ _ r2 hr hs
              cases hr
              omega
          · refine ⟨false, none, by simp [hctx, herr, h1, h2], ?_, ?_⟩
            · simp only [hctx, herr, true_and, ne_eq, not_true_eq_false, false_or,
                Bool.false_eq_true, false_iff, not_exists, not_and]
              intro r2 hr
              cases hr
              omega
            · intros; rfl
    · refine ⟨true, err, by simp [hctx, herr], ?_, ?_⟩
      · simp [hctx, herr]
      · intro _ h; exact absurd h herr
  · refine ⟨false, ctx.Err, by simp [hctx], ?_, ?_⟩
    · simp [hctx]
    · intros; rfl

/-- C1, amended, at a concrete input: status 503 with a live context and no error. -/
theorem default_retry_truth_table_witness :
    ∃ b e, (setRetryPolicy sampleClient mainConf).RetryableClient.CheckRetry ⟨none⟩
        (some (statusOnly 503)) none = .ok (b, e)
      ∧ (b = true ↔ (⟨none⟩ : Context).Err = none ∧ ((none : Option GoError) ≠ none ∨
            ∃ r, some (statusOnly 503) = some r ∧
            (r.StatusCode = 0 ∨ r.StatusCode = 429 ∨ (500 ≤ r.StatusCode ∧ r.StatusCode ≠ 501))))
      ∧ ((⟨none⟩ : Context).Err = none → (none : Option GoError) = none →
            ∀ r, some (statusOnly 503) = some r →
            ((1 ≤ r.StatusCode ∧ r.StatusCode ≤ 499 ∧ r.StatusCode ≠ 429) ∨ r.StatusCode = 501) →
            b = false) :=
  default_retry_truth_table sampleClient mainConf ⟨none⟩ (some (statusOnly 503)) none rfl
    (Or.inr (Or.inr (by simp)))

/-- C4: when the context passed to the predicate installed by `setRetryPolicy` for a nil
`cfg.RetryPolicy` is cancelled or past its deadline, the predicate returns
`(false, ctx.Err())` for every response (nil too) and every transport error (nil or
not). -/
theorem default_retry_cancelled (c : OpsGenieClient) (cfg : Config) (ctx : Context)
    (resp : Option Response) (err : Option GoError)
    (hpol : cfg.RetryPolicy = none) (hctx : ctx.Err ≠ none) :
    (setRetryPolicy c cfg).RetryableClient.CheckRetry ctx resp err = .ok (false, ctx.Err) := by
  rw [setRetryPolicy_installs_default c cfg hpol]
  simp [defaultCheckRetry, hctx]

/-- C4 at a concrete input: deadline exceeded, no response, a transport error. -/
theorem default_retry_cancelled_witness :
    (setRetryPolicy sampleClient mainConf).RetryableClient.CheckRetry ⟨some .deadlineExceeded⟩
      none (some (.foreign "dial tcp: i/o timeout")) = .ok (false, some .deadlineExceeded) :=
  default_retry_cancelled sampleClient mainConf ⟨some .deadlineExceeded⟩ none
    (some (.foreign "dial tcp: i/o timeout")) rfl (by simp)

/-- C5, the claim as stated fails: for a live context and the transport error
"connection refused" the installed predicate returns the flag true together with that
same error, not with a nil error. -/
theorem default_retry_transport_error_not_nil :
    (setRetryPolicy sampleClient mainConf).RetryableClient.CheckRetry ⟨none⟩ none
        (some (.foreign "connection refused")) = .ok (true, some (.foreign "connection refused"))
    ∧ (setRetryPolicy sampleClient mainConf).RetryableClient.CheckRetry ⟨none⟩ none
        (some (.foreign "connection refused")) ≠ .ok (true, none) := by
  rw [setRetryPolicy_installs_default sampleClient mainConf rfl]
  decide

/-- C5, amended: for every live context and every non-nil transport error `err`, the
predicate installed by `setRetryPolicy` for a nil `cfg.RetryPolicy` returns
`(true, err)`: it asks for a retry and hands the transport error back. -/
theorem default_retry_transport_error (c : OpsGenieClient) (cfg : Config) (ctx : Context)
    (resp : Option Response) (err : Option GoError)
    (hpol : cfg.RetryPolicy = none) (hctx : ctx.Err = none) (herr : err ≠ none) :
    (setRetryPolicy c cfg).RetryableClient.CheckRetry ctx resp err = .ok (true, err) := by
  rw [setRetryPolicy_installs_default c cfg hpol]
  simp [defaultCheckRetry, hctx, herr]

/-- C5, amended, at a concrete input. -/
theorem default_retry_transport_error_witness :
    (setRetryPolicy sampleClient mainConf).RetryableClient.CheckRetry ⟨none⟩ none
      (some (.foreign "connection refused")) = .ok (true, some (.foreign "connection refused")) :=
  default_retry_transport_error sampleClient mainConf ⟨none⟩ none
    (some (.foreign "connection refused")) rfl rfl (by simp)

/-! ## Retry count and attempts: C7 -/

/-- Every run of the retry loop that returns makes at least one attempt from `i` on
and at most `remain + 1`. -/
theorem Do.loop_attempts (c : RetryableClient) (net : Network) (req : Request) :
    ∀ (remain i : Nat) (out : Option Response × Option GoError × Nat),
      Do.loop c net req remain i = .ok out → i + 1 ≤ out.2.2 ∧ out.2.2 ≤ i + remain + 1 := by
  intro remain
  induction remain with
  | zero =>
    intro i out h
    unfold Do.loop at h
    simp only at h
    split at h
    · cases h
    · split at h
      · cases h; simp
      · split at h
        · cases h; simp
        · cases h; simp
  | succ n ih =>
    intro i out h
    unfold Do.loop at h
    simp only at h
    split at h
    · cases h
    · split at h
      · cases h; simp
      · split at h
        · cases h; simp
        · have := ih (i + 1) out h
          omega

/-- With the default predicate, a live context and a server that answers 500 every
time, the retry loop uses every attempt it has. -/
theorem Do.loop_exhausts (c : RetryableClient) (req : Request)
    (hc : c.CheckRetry = defaultCheckRetry) (hctx : req.ctx.Err = none) :
    ∀ (remain i : Nat), ∃ resp err,
      Do.loop c (fun _ _ _ => (some (statusOnly 500), none)) req remain i
        = .ok (resp, err, i + remain + 1) := by
  intro remain
  induction remain with
  | zero =>
    intro i
    unfold Do.loop
    simp only [hc, defaultCheckRetry, hctx, statusOnly]
    cases c.ErrorHandler <;> simp
  | succ n ih =>
    intro i
    unfold Do.loop
    obtain ⟨r, e, h⟩ := ih (i + 1)
    refine ⟨r, e, ?_⟩
    simp only [hc, defaultCheckRetry, hctx, statusOnly]
    simp only [statusOnly] at h
    simp [h]
    omega

/-- C7: after `setRetryPolicy`, `RetryMax` is `cfg.RetryCount` when that is non-zero and
4 when it is 0.  Hence for `cfg.RetryCount >= 0` it is at least 1, and the number of
attempts allowed is `RetryMax + 1`: no call of the transport makes more attempts (nor
fewer than one), and with the default predicate a live request against a server that
keeps answering 500 makes exactly that many; for `RetryCount` 0 that is 5. -/
theorem setRetryPolicy_RetryMax (c : OpsGenieClient) (cfg : Config) :
    (cfg.RetryCount ≠ 0 → (setRetryPolicy c cfg).RetryableClient.RetryMax = cfg.RetryCount)
    ∧ (cfg.RetryCount = 0 → (setRetryPolicy c cfg).RetryableClient.RetryMax = 4)
    ∧ (0 ≤ cfg.RetryCount →
        1 ≤ (setRetryPolicy c cfg).RetryableClient.RetryMax
        ∧ (∀ (net : Network) (req : Request) (out : Option Response × Option GoError × Nat),
            (setRetryPolicy c cfg).RetryableClient.Do net req = .ok out →
            1 ≤ out.2.2 ∧ (out.2.2 : Int) ≤ (setRetryPolicy c cfg).RetryableClient.RetryMax + 1)
        ∧ (cfg.RetryPolicy = none → ∀ req : Request, req.ctx.Err = none → ∃ resp err,
            (setRetryPolicy c cfg).RetryableClient.Do (fun _ _ _ => (some (statusOnly 500), none)) req
              = .ok (resp, err, ((setRetryPolicy c cfg).RetryableClient.RetryMax + 1).toNat))
        ∧ (cfg.RetryCount = 0 → (setRetryPolicy c cfg).RetryableClient.RetryMax + 1 = 5)) := by
  have hne : cfg.RetryCount ≠ 0 → (setRetryPolicy c cfg).RetryableClient.RetryMax = cfg.RetryCount := by
    intro h
    simp [setRetryPolicy, h]
  have hz : cfg.RetryCount = 0 → (setRetryPolicy c cfg).RetryableClient.RetryMax = 4 := by
    intro h
    simp [setRetryPolicy, h]
  refine ⟨hne, hz, ?_⟩
  intro hpos
  have h1 : 1 ≤ (setRetryPolicy c cfg).RetryableClient.RetryMax := by
    by_cases h : cfg.RetryCount = 0
    · rw [hz h]; decide
    · rw [hne h]; omega
  refine ⟨h1, ?_, ?_, ?_⟩
  · intro net req out hout
    have := Do.loop_attempts _ net req _ 0 out hout
    omega
  · intro hpol req hctx
    obtain ⟨r, e, h⟩ := Do.loop_exhausts (setRetryPolicy c cfg).RetryableClient req
      (setRetryPolicy_installs_default c cfg hpol) hctx
      (setRetryPolicy c cfg).RetryableClient.RetryMax.toNat 0
    refine ⟨r, e, ?_⟩
    unfold RetryableClient.Do
    rw [h]
    congr 3
    omega
  · intro h
    rw [hz h]
    rfl

/-- C7 at concrete inputs: `main`'s configuration (retry count 1) allows 2 attempts. -/
theorem setRetryPolicy_RetryMax_witness :
    (setRetryPolicy sampleClient mainConf).RetryableClient.RetryMax = 1
    ∧ ∃ resp err, (setRetryPolicy sampleClient mainConf).RetryableClient.Do
        (fun _ _ _ => (some (statusOnly 500), none))
        { Method := "GET", URL := "https://api.eu.opsgenie.com/v2/heartbeats/NewSDK", Header := [],
          Body := none, ctx := Context.background }
        = .ok (resp, err, ((setRetryPolicy sampleClient mainConf).RetryableClient.RetryMax + 1).toNat) :=
  ⟨(setRetryPolicy_RetryMax sampleClient mainConf).1 (by decide),
   ((setRetryPolicy_RetryMax sampleClient mainConf).2.2 (by decide)).2.2.1 rfl _ rfl⟩

/-! ## Region, API key and log level: C8, C9, C10 -/

/-- C8: after `setConfiguration` the base URL `Config.apiUrl` is
`"https://api.eu.opsgenie.com"` when `cfg.OpsGenieAPIURL` equals `API_URL_EU` and
`"https://api.opsgenie.com"` for every other value of `cfg.OpsGenieAPIURL`. -/
theorem setConfiguration_apiUrl (env : Env) (c : OpsGenieClient) (cfg : Config) :
    (cfg.OpsGenieAPIURL = env.API_URL_EU →
        (setConfiguration env c cfg).Config.apiUrl = "https://api.eu.opsgenie.com")
    ∧ (cfg.OpsGenieAPIURL ≠ env.API_URL_EU →
        (setConfiguration env c cfg).Config.apiUrl = "https://api.opsgenie.com") := by
  constructor
  · intro h
    unfold setConfiguration
    simp only [h, if_true]
    cases cfg.HttpClient <;> rfl
  · intro h
    unfold setConfiguration
    simp only [h, if_false]
    cases cfg.HttpClient <;> rfl

/-- C8 at concrete inputs: the EU constant, and an unknown region string. -/
theorem setConfiguration_apiUrl_witness :
    (setConfiguration sampleEnv sampleClient mainConf).Config.apiUrl = "https://api.eu.opsgenie.com"
    ∧ (setConfiguration sampleEnv sampleClient { mainConf with OpsGenieAPIURL := "mars" }).Config.apiUrl
        = "https://api.opsgenie.com" :=
  ⟨(setConfiguration_apiUrl sampleEnv sampleClient mainConf).1 rfl,
   (setConfiguration_apiUrl sampleEnv sampleClient { mainConf with OpsGenieAPIURL := "mars" }).2
     (by decide)⟩

/-- The only error `setProxy` returns is a `*url.Error`. -/
theorem setProxy_error (env : Env) (c : OpsGenieClient) (proxyUrl : String) (e : GoError)
    (h : (setProxy env c proxyUrl).2 = some e) : ∃ detail, e = .urlError detail := by
  unfold setProxy at h
  split at h
  · split at h
    · next detail _ => exact ⟨detail, by simpa using h.symm⟩
    · simp at h
  · simp at h

/-- The text of a `*url.Error` is never the text of the missing-key error. -/
theorem urlError_text_ne (detail : String) : "parse " ++ detail ≠ "API key cannot be blank" := by
  intro h
  have h2 := congrArg String.data h
  simp [String.data_append] at h2

/-- C9: for a `Config` with an empty `ApiKey`, whatever its other fields hold,
`NewOpsGenieClient` returns a nil client and the error of `errors.New` with the text
"API key cannot be blank"; for a `Config` with a non-empty `ApiKey`, the returned
error, if any, is not that error and does not have that text. -/
theorem NewOpsGenieClient_ApiKey (env : Env) (g : Globals) (cfg : Config) :
    (cfg.ApiKey = "" →
        (NewOpsGenieClient env g cfg).2.1.isNone = true
        ∧ (NewOpsGenieClient env g cfg).2.2 = some (.errorsNew "API key cannot be blank")
        ∧ ((NewOpsGenieClient env g cfg).2.2.map (GoError.Error env)) = some "API key cannot be blank")
    ∧ (cfg.ApiKey ≠ "" → ∀ e, (NewOpsGenieClient env g cfg).2.2 = some e →
        e ≠ .errorsNew "API key cannot be blank"
        ∧ GoError.Error env e ≠ "API key cannot be blank") := by
  constructor
  · intro h
    simp [NewOpsGenieClient, h, GoError.Error]
  · intro h e he
    unfold NewOpsGenieClient at he
    simp only [h, if_false] at he
    split at he
    · simp only at he
      obtain ⟨detail, hd⟩ := setProxy_error _ _ _ e he
      subst hd
      exact ⟨by simp, by simpa [GoError.Error] using urlError_text_ne detail⟩
    · simp at he

/-- C9 at concrete inputs: an empty key with an unparseable proxy URL, and a key with an
unparseable proxy URL. -/
theorem NewOpsGenieClient_ApiKey_witness :
    ((NewOpsGenieClient sampleEnv sampleGlobals
          { mainConf with ApiKey := "", ProxyUrl := "http://bad proxy" }).2.1.isNone = true
      ∧ (NewOpsGenieClient sampleEnv sampleGlobals
          { mainConf with ApiKey := "", ProxyUrl := "http://bad proxy" }).2.2
          = some (.errorsNew "API key cannot be blank")
      ∧ ((NewOpsGenieClient sampleEnv sampleGlobals
          { mainConf with ApiKey := "", ProxyUrl := "http://bad proxy" }).2.2.map
            (GoError.Error sampleEnv)) = some "API key cannot be blank")
    ∧ (.urlError "http://bad proxy: invalid character in URL" ≠ GoError.errorsNew "API key cannot be blank"
      ∧ GoError.Error sampleEnv (.urlError "http://bad proxy: invalid character in URL")
          ≠ "API key cannot be blank") :=
  ⟨(NewOpsGenieClient_ApiKey sampleEnv sampleGlobals
      { mainConf with ApiKey := "", ProxyUrl := "http://bad proxy" }).1 rfl,
   (NewOpsGenieClient_ApiKey sampleEnv sampleGlobals { mainConf with ProxyUrl := "http://bad proxy" }).2
      (by decide) (.urlError "http://bad proxy: invalid character in URL") (by decide)⟩

/-- Function `setRetryPolicy` leaves the `Config` of the handle alone. -/
theorem setRetryPolicy_Config (c : OpsGenieClient) (cfg : Config) :
    (setRetryPolicy c cfg).Config = c.Config := rfl

/-- Function `setProxy` leaves the `Config` of the handle alone. -/
theorem setProxy_Config (env : Env) (c : OpsGenieClient) (proxyUrl : String) :
    (setProxy env c proxyUrl).1.Config = c.Config := by
  unfold setProxy
  split
  · split <;> rfl
  · rfl

/-- Function `setConfiguration` leaves the `LogLevel` in the handle alone. -/
theorem setConfiguration_LogLevel (env : Env) (c : OpsGenieClient) (cfg : Config) :
    (setConfiguration env c cfg).Config.LogLevel = c.Config.LogLevel := by
  unfold setConfiguration
  cases cfg.HttpClient <;> simp only <;> split <;> rfl

/-- The `Config` of the handle `NewOpsGenieClient` returns has the `LogLevel` of the
`Config` that was passed in: `setLogger` writes to the local variable `cfg` after its
value was copied into the handle. -/
theorem NewOpsGenieClient_keeps_LogLevel (env : Env) (g : Globals) (cfg : Config) (c : OpsGenieClient)
    (h : (NewOpsGenieClient env g cfg).2.1 = some c) : c.Config.LogLevel = cfg.LogLevel := by
  unfold NewOpsGenieClient at h
  by_cases hk : cfg.ApiKey = ""
  · simp [hk] at h
  · simp only [hk, if_false] at h
    split at h
    · simp at h
    · simp only [Option.some.injEq] at h
      rw [← h, setRetryPolicy_Config, setProxy_Config]
      exact setConfiguration_LogLevel env _ cfg

/-- C10, the code at the configuration of `main` (log level "iasdasd"): construction
succeeds, "iasdasd" is not a level, the logger ends at level "info", the copy of the
`Config` behind `setLogger`'s pointer gets "info", and yet the `Config` held by the
returned handle still has `LogLevel` "iasdasd". -/
theorem NewOpsGenieClient_LogLevel_not_written_back :
    (NewOpsGenieClient sampleEnv sampleGlobals mainConf).2.2 = none
    ∧ ParseLevel mainConf.LogLevel = none
    ∧ (NewOpsGenieClient sampleEnv sampleGlobals mainConf).1.logLevel.String = "info"
    ∧ (setLogger sampleGlobals mainConf).2.LogLevel = "info"
    ∧ (NewOpsGenieClient sampleEnv sampleGlobals mainConf).2.1.map (fun c => c.Config.LogLevel)
        = some "iasdasd" := by
  decide

/-! ## Content-Type of a built request: C6 -/

/-- The key `Content-Type` is in canonical form. -/
theorem canon_ContentType : CanonicalMIMEHeaderKey "Content-Type" = "Content-Type" := by decide
/-- The key `Accept` is in canonical form. -/
theorem canon_Accept : CanonicalMIMEHeaderKey "Accept" = "Accept" := by decide
/-- The key `Authorization` is in canonical form. -/
theorem canon_Authorization : CanonicalMIMEHeaderKey "Authorization" = "Authorization" := by decide
/-- The key `User-Agent` is in canonical form. -/
theorem canon_UserAgent : CanonicalMIMEHeaderKey "User-Agent" = "User-Agent" := by decide

/-- A request made by `NewRequest` has an empty header. -/
theorem NewRequest_Header (env : Env) (method url : String) (rawBody : Option String) (req : Request)
    (h : NewRequest env method url rawBody = .ok req) : req.Header = [] := by
  unfold NewRequest at h
  by_cases hm : ((if method = "" then "GET" else method).data.all isTokenByte) = true
  · cases hu : env.urlParse url with
    | error d => simp [hm, hu] at h
    | ok u =>
      simp [hm, hu] at h
      rw [← h]
  · simp [hm] at h

/-- The header of a request built by `buildHttpRequest`, entry by entry. -/
theorem buildHttpRequest_Header (env : Env) (g : Globals) (cli : OpsGenieClient) (apiRequest : ApiRequest)
    (req : Request) (h : buildHttpRequest env g cli apiRequest = .ok req) :
    req.Header =
      (if apiRequest.Method ≠ "GET" ∧ apiRequest.Method ≠ "DELETE" then
        [("Content-Type", ["application/json; charset=utf-8"])] else [])
      ++ [("Accept", ["application/json"]), ("Authorization", ["GenieKey " ++ cli.Config.ApiKey]),
          ("User-Agent", [g.UserAgentHeader])]
      ++ (if apiRequest.Method = "GET" then
        [("Content-Type", ["application/x-www-form-urlencoded; charset=UTF-8"])] else []) := by
  unfold buildHttpRequest at h
  simp only at h
  split at h
  · cases h
  · split at h
    · cases h
    · next buf _ r hr =>
      have h0 := NewRequest_Header _ _ _ _ _ hr
      cases h
      simp only [h0]
      by_cases hG : apiRequest.Method = "GET"
      · simp [hG, Header.Add, canon_ContentType, canon_Accept, canon_Authorization, canon_UserAgent]
      · by_cases hD : apiRequest.Method = "DELETE"
        · simp [hD, Header.Add, canon_ContentType, canon_Accept, canon_Authorization, canon_UserAgent]
        · simp [hG, hD, Header.Add, canon_ContentType, canon_Accept, canon_Authorization, canon_UserAgent]

/-- C6: a request built by `buildHttpRequest` carries the Content-Type value
`application/json; charset=utf-8` if and only if `Method()` is neither "GET" nor
"DELETE"; for "GET" its only Content-Type value is
`application/x-www-form-urlencoded; charset=UTF-8`; for "DELETE" it has no Content-Type
header at all (its header keys are Accept, Authorization and User-Agent). -/
theorem buildHttpRequest_ContentType (env : Env) (g : Globals) (cli : OpsGenieClient)
    (apiRequest : ApiRequest) (req : Request)
    (h : buildHttpRequest env g cli apiRequest = .ok req) :
    ("application/json; charset=utf-8" ∈ Header.Values req.Header "Content-Type"
        ↔ (apiRequest.Method ≠ "GET" ∧ apiRequest.Method ≠ "DELETE"))
    ∧ (apiRequest.Method = "GET" →
        Header.Values req.Header "Content-Type" = ["application/x-www-form-urlencoded; charset=UTF-8"])
    ∧ (apiRequest.Method = "DELETE" →
        Header.Values req.Header "Content-Type" = []
        ∧ req.Header.map Prod.fst = ["Accept", "Authorization", "User-Agent"]) := by
  have hh := buildHttpRequest_Header env g cli apiRequest req h
  by_cases hG : apiRequest.Method = "GET"
  · simp [hG] at hh
    simp [hh, hG, Header.Values, canon_ContentType]
  · by_cases hD : apiRequest.Method = "DELETE"
    · simp [hD] at hh
      simp [hh, hD, Header.Values, canon_ContentType]
    · simp [hG, hD] at hh
      simp [hh, hG, hD, Header.Values, canon_ContentType]

/-- C6 at a concrete input: the GET request of `main`. -/
theorem buildHttpRequest_ContentType_witness :
    ("application/json; charset=utf-8" ∈ Header.Values
        ([("Accept", ["application/json"]),
          ("Authorization", ["GenieKey a871eb83-2d00-4b09-9fb9-7c134a369082"]),
          ("User-Agent", [""]),
          ("Content-Type", ["application/x-www-form-urlencoded; charset=UTF-8"])] : Header)
        "Content-Type"
        ↔ (getHeartbeat.Method ≠ "GET" ∧ getHeartbeat.Method ≠ "DELETE"))
    ∧ (getHeartbeat.Method = "GET" →
        Header.Values
          ([("Accept", ["application/json"]),
            ("Authorization", ["GenieKey a871eb83-2d00-4b09-9fb9-7c134a369082"]),
            ("User-Agent", [""]),
            ("Content-Type", ["application/x-www-form-urlencoded; charset=UTF-8"])] : Header)
          "Content-Type" = ["application/x-www-form-urlencoded; charset=UTF-8"])
    ∧ (getHeartbeat.Method = "DELETE" →
        Header.Values
          ([("Accept", ["application/json"]),
            ("Authorization", ["GenieKey a871eb83-2d00-4b09-9fb9-7c134a369082"]),
            ("User-Agent", [""]),
            ("Content-Type", ["application/x-www-form-urlencoded; charset=UTF-8"])] : Header)
          "Content-Type" = []
        ∧ ([("Accept", ["application/json"]),
            ("Authorization", ["GenieKey a871eb83-2d00-4b09-9fb9-7c134a369082"]),
            ("User-Agent", [""]),
            ("Content-Type", ["application/x-www-form-urlencoded; charset=UTF-8"])] : Header).map
            Prod.fst = ["Accept", "Authorization", "User-Agent"]) :=
  buildHttpRequest_ContentType sampleEnv sampleGlobals configuredClient getHeartbeat
    { Method := "GET", URL := "https://api.eu.opsgenie.com/v2/heartbeats/NewSDK",
      Header := [("Accept", ["application/json"]),
        ("Authorization", ["GenieKey a871eb83-2d00-4b09-9fb9-7c134a369082"]),
        ("User-Agent", [""]),
        ("Content-Type", ["application/x-www-form-urlencoded; charset=UTF-8"])],
      Body := none, ctx := Context.background }
    (by decide)

/-! ## Validation short-circuit: C3 -/

/-- When validation passes, `Exec` does go to the network: for the GET request of `main`
on `okNetwork` it builds the request, calls `do`, makes one HTTP attempt and fills the
receiver. -/
theorem Exec_reaches_network :
    (configuredClient.Exec sampleEnv sampleGlobals okNetwork metaReceiver none getHeartbeat
        emptyMeta).map (fun out => (out.err, out.result, out.events))
      = .ok (none, { RequestID := "rid-1", ResponseTime := Float32.zero, RateLimitState := "" },
          [.buildHttpRequest, .do, .httpAttempt 0]) := by
  decide

/-- C3, the claim as stated fails for the nil error: when `Validate` returns
`(false, nil)`, `Exec` does not return that `e`; evaluating `err.Error()` for the log
line panics. -/
theorem Exec_validation_nil_error_panics :
    (configuredClient.Exec sampleEnv sampleGlobals okNetwork metaReceiver none
        { getHeartbeat with Validate := (false, none) } emptyMeta).map
        (fun out => (out.err, out.result, out.events))
      = .error .nilDereference
    ∧ (configuredClient.Exec sampleEnv sampleGlobals okNetwork metaReceiver none
        { getHeartbeat with Validate := (false, none) } emptyMeta).map
        (fun out => (out.err, out.result, out.events))
      ≠ .ok (none, emptyMeta, []) := by
  decide

/-- C3, amended: for every request descriptor whose `Validate` returns `(false, e)` with
a non-nil error `e`, `Exec` returns exactly `e` and makes zero HTTP attempts: the call
has no event at all (no `buildHttpRequest`, no `do`, no attempt) and the receiver is
left unchanged. -/
theorem Exec_validation_short_circuit {R : Type} (env : Env) (g : Globals) (net : Network)
    (ops : apiResult R) (cli : OpsGenieClient) (ctx : Option Context) (request : ApiRequest)
    (result : R) (e : GoError) (h : request.Validate = (false, some e)) :
    cli.Exec env g net ops ctx request result
      = .ok { err := some e, result := result, events := [] } := by
  unfold OpsGenieClient.Exec
  simp [h]

/-- C3, amended, at a concrete input: a heartbeat request without a name. -/
theorem Exec_validation_short_circuit_witness :
    configuredClient.Exec sampleEnv sampleGlobals okNetwork metaReceiver none
        { getHeartbeat with Validate := (false, some (.errorsNew "HeartbeatName cannot be empty")) }
        emptyMeta
      = .ok { err := some (.errorsNew "HeartbeatName cannot be empty"), result := emptyMeta,
              events := [] } :=
  Exec_validation_short_circuit sampleEnv sampleGlobals okNetwork metaReceiver configuredClient none
    { getHeartbeat with Validate := (false, some (.errorsNew "HeartbeatName cannot be empty")) }
    emptyMeta (.errorsNew "HeartbeatName cannot be empty") rfl

/-! ## Error extraction: C2 -/

/-- Function `handleErrorIfExist` returns nil for a nil response and for a status
below 300. -/
theorem handleErrorIfExist_none (response : Option Response)
    (h : ∀ r, response = some r → r.StatusCode < 300) : handleErrorIfExist response = none := by
  unfold handleErrorIfExist
  cases response with
  | none => rfl
  | some r =>
    have := h r rfl
    simp only
    split
    · omega
    · rfl

/-- For a status of 300 or more and a body that is not a JSON object (not JSON at all,
or JSON of another shape), the `ApiError` has the decimal status as `StatusCode`, the
header value as `ErrorHeader`, and every other field empty. -/
theorem handleErrorIfExist_not_object (r : Response) (hs : 300 ≤ r.StatusCode)
    (hb : ∀ members, parseJson r.Body ≠ some (.obj members)) :
    handleErrorIfExist (some r) = some (.apiError
      { Message := "", Took := Float32.zero, RequestId := "", Errors := none,
        StatusCode := Itoa r.StatusCode, ErrorHeader := Header.Get r.Header "X-Opsgenie-Errortype" }) := by
  unfold handleErrorIfExist
  simp only [ge_iff_le, hs, if_true]
  unfold UnmarshalApiError
  split
  · next members hm => exact absurd hm (hb members)
  · rfl

/-- The example of the specification: status 429 with the body
`{"message":"slow down","took":0.5,"requestId":"abc","errors":{"x":"y"}}`. -/
theorem handleErrorIfExist_example :
    handleErrorIfExist (some
        { StatusCode := 429, Header := [("X-Opsgenie-Errortype", ["RateLimit"])],
          Body := "\x7b\"message\":\"slow down\",\"took\":0.5,\"requestId\":\"abc\",\"errors\":\x7b\"x\":\"y\"\x7d\x7d",
          ReadErr := none })
      = some (.apiError
          { Message := "slow down", Took := ⟨"0.5"⟩, RequestId := "abc", Errors := some [("x", "y")],
            StatusCode := "429", ErrorHeader := "RateLimit" }) := by
  decide

/-- C2, the code at a failing input: for status 429, header
`X-Opsgenie-Errortype: RateLimit` and the body
`{"StatusCode":"200","ErrorHeader":"spoofed"}`, the returned `ApiError` has `StatusCode`
"200" and `ErrorHeader` "spoofed", not the decimal status "429" and the header value
"RateLimit": the body is decoded over the two fields after they were set. -/
theorem handleErrorIfExist_body_overrides_status :
    handleErrorIfExist (some
        { StatusCode := 429, Header := [("X-Opsgenie-Errortype", ["RateLimit"])],
          Body := "\x7b\"StatusCode\":\"200\",\"ErrorHeader\":\"spoofed\"\x7d",
          ReadErr := none })
      = some (.apiError
          { Message := "", Took := Float32.zero, RequestId := "", Errors := none,
            StatusCode := "200", ErrorHeader := "spoofed" })
    ∧ Itoa 429 = "429"
    ∧ Header.Get [("X-Opsgenie-Errortype", ["RateLimit"])] "X-Opsgenie-Errortype" = "RateLimit" := by
  decide

end OpsGenie
